import Mathlib

/-
Verification of the mcp-ollama-agent conversation engine and workflow driver.

Shallow embedding of:
  - src/lib/ChatManager.ts            (the active Conversation Engine)
  - src/lib/ChatManager_backup_1.ts   (the backup variant with counters and a 0.75 RAG filter)
  - src/lib/XappTrainer.ts            (ensureToolTriggered, the guaranteed-tool-trigger helper)

External collaborators (the Ollama chat endpoint, the MCP tool service, the RAG
recall endpoint, the result recorder, the JSON library and the tool-response
formatter, which live outside the repository) are modelled as oracle functions
collected into an `Env`.  Each oracle is indexed by a call counter so that a
single `Env` can describe any sequence of replies the live services could give.
-/

namespace McpAgent

/-- Substring test on the character level, modelling JavaScript
`String.prototype.includes`. -/
def listInfixAt : List Char → List Char → Bool
  | pat, [] => pat.isEmpty
  | pat, c :: rest => pat.isPrefixOf (c :: rest) || listInfixAt pat rest

/-- The call `strContains s pat` models `s.includes(pat)` in JavaScript. -/
def strContains (s pat : String) : Bool :=
  listInfixAt pat.toList s.toList

/-- A JavaScript object whose values the engine never inspects: an ordered
association list of string keys (JS objects preserve insertion order for
string keys and have no duplicate keys). -/
abbrev JsObj := List (String × String)

/-- Property write `o[k] = v` on a JS object: overwrite in place when the key
exists, append otherwise. -/
def objInsert {α : Type} : List (String × α) → String → α → List (String × α)
  | [], k, v => [(k, v)]
  | (k2, v2) :: rest, k, v =>
      if k2 = k then (k, v) :: rest else (k2, v2) :: objInsert rest k v

/-- The lookup `mappings[key] || key` from ChatManager.fixToolArguments: JS `||` falls
back to `key` when the mapping is absent or the mapped name is the empty
string (falsy). -/
def mappedKey (mappings : List (String × String)) (key : String) : String :=
  match mappings.lookup key with
  | some m => if m = "" then key else m
  | none => key

/-- ChatManager.fixToolArguments (identical in both versions): rebuild the
argument object, writing each provided value under its corrected key. -/
def fixToolArguments {α : Type} (args : List (String × α))
    (mappings : List (String × String)) : List (String × α) :=
  args.foldl (fun acc kv => objInsert acc (mappedKey mappings kv.1) kv.2) []

/-- One entry of TurnOutcome.toolResults as the XappTrainer consumes it:
`tr.toolName` may be absent (the code reads it with optional chaining) and
`tr.result` is the raw tool-message text. -/
structure ToolResultEntry where
  toolName : Option String
  result : String
deriving DecidableEq

/-- The trigger test of XappTrainer.ensureToolTriggered, applied to the
toolResults of one attempt: a case-insensitive trimmed name match, or the
result text containing the marker Tool "<expectedTool>". -/
def attemptTriggered (expectedTool : String) (trs : List ToolResultEntry) : Bool :=
  trs.any fun tr =>
    (match tr.toolName with
     | some n => n.trim.toLower = expectedTool.trim.toLower
     | none => false)
    || strContains tr.result ("Tool \"" ++ expectedTool ++ "\"")

/-- The error message thrown by ensureToolTriggered when every attempt fails. -/
def triggerFailMessage (expectedTool stepName : String) : String :=
  "[❌ 失敗] 工具 " ++ expectedTool ++ " 在步驟 " ++ stepName ++ " 中未觸發"

/-- The retry loop of XappTrainer.ensureToolTriggered.  `attempts i` is the
toolResults list produced by the i-th call to chat.handleUserInput (the chat
engine is stateful, so successive attempts may differ).  Returns the number of
attempts performed, paired with `none` on success and with the thrown error
message when the retry budget is exhausted. -/
def ensureGo (attempts : Nat → List ToolResultEntry) (expectedTool stepName : String) :
    Nat → Nat → Nat × Option String
  | used, 0 => (used, some (triggerFailMessage expectedTool stepName))
  | used, Nat.succ k =>
      if attemptTriggered expectedTool (attempts used) then (used + 1, none)
      else ensureGo attempts expectedTool stepName (used + 1) k

/-- XappTrainer.ensureToolTriggered with retry budget `retry` (the source
default, used by every call site, is 3). -/
def ensureToolTriggered (attempts : Nat → List ToolResultEntry)
    (expectedTool stepName : String) (retry : Nat) : Nat × Option String :=
  ensureGo attempts expectedTool stepName 0 retry

/-- One item of an MCP tool result's content array: `{ type, text? }`. -/
structure ContentItem where
  type : String
  text : Option String
deriving DecidableEq

/-- The content of a ToolInvocationResult: either a JSON array of content
items or some non-array value (the code branches on Array.isArray). -/
inductive ToolContent where
  | items : List ContentItem → ToolContent
  | plain : String → ToolContent
deriving DecidableEq

/-- A ToolInvocationResult as returned by ToolManager.callTool. -/
structure ToolResult where
  content : ToolContent
deriving DecidableEq

/-- The payload `toolCall.function.arguments`: the model may supply either a JSON string
or an already-parsed object. -/
inductive RawArgs where
  | str : String → RawArgs
  | obj : JsObj → RawArgs
deriving DecidableEq

/-- A ToolCallRequest `{ function: { name, arguments } }`. -/
structure ToolCall where
  name : String
  arguments : RawArgs
deriving DecidableEq

/-- An OllamaMessage as the engine stores it in `this.messages`. -/
structure Message where
  role : String
  content : String
  tool_call_id : Option String
deriving DecidableEq

/-- A chat completion `{ message, message.tool_calls ?? [] }`. -/
structure ChatResponse where
  message : Message
  tool_calls : List ToolCall
deriving DecidableEq

/-- A thrown JavaScript error, classified the way the engine classifies it:
either `cause.code === "ECONNREFUSED"` or anything else. -/
inductive JsError where
  | connRefused
  | other (tag : String)
deriving DecidableEq

/-- The schema record returned by ToolManager.getToolParameterInfo:
`parameters.required` and the keys of `parameters.properties`. -/
structure ToolInfo where
  required : List String
  properties : List String
deriving DecidableEq

/-- One retrieved RAG document from the recall endpoint's selected_docs. -/
structure Doc where
  text : String
  source_doc : Option String
  created_at : Option String
  certainty : Option Rat
deriving DecidableEq

/-- The mutable per-session state of a ChatManager instance: the message
history plus (backup version only) the tool-usage flag and error counter.
The call counters index the oracle streams of `Env`; `trace` records which
tools were invoked and when the model was called, for observation only. -/
structure EngineState where
  msgs : List Message
  toolUsageFlag : Bool
  toolErrorCount : Nat
  chatCount : Nat
  toolCount : Nat
  recallCount : Nat
  recordCount : Nat
  trace : List String
deriving DecidableEq

/-- Trace entry for one ToolManager.callTool invocation. -/
def invokedTag (name : String) : String := "invoke:" ++ name

/-- Trace entry for one ollama.chat call. -/
def chatTag : String := "chat"

/-- The external collaborators, as counter-indexed oracles.  `chat` also
receives the outbound message list, `callTool` the (fixed) arguments, and
`record` the payload fields of recordResult that come from engine state. -/
structure Env where
  suggest : String → JsObj → List (String × String)
  callTool : Nat → String → JsObj → Except JsError (Option ToolResult)
  chat : Nat → List Message → Except JsError ChatResponse
  recallDocs : Nat → Except JsError (List Doc)
  record : Nat → String → Bool → Bool → Nat → Except JsError Unit
  toolInfo : String → Option ToolInfo
  fmt : ToolContent → String
  jsonParse : String → Option JsObj
  stringify : RawArgs → String

/-- Mutation `this.messages.push(m)`. -/
def push (st : EngineState) (m : Message) : EngineState :=
  { st with msgs := st.msgs ++ [m] }

/-- Mutation `this.messages.pop()`. -/
def pop (st : EngineState) : EngineState :=
  { st with msgs := st.msgs.dropLast }

/-- Consume one callTool oracle step and record the invocation. -/
def bumpTool (st : EngineState) (name : String) : EngineState :=
  { st with toolCount := st.toolCount + 1, trace := st.trace ++ [invokedTag name] }

/-- Consume one chat oracle step and record the model call. -/
def bumpChat (st : EngineState) : EngineState :=
  { st with chatCount := st.chatCount + 1, trace := st.trace ++ [chatTag] }

/-- Outcome of a code path: `none` when the recursion fuel ran out, otherwise
either normal completion or a thrown error; both carry the state, because
`this.messages` is mutated in place and survives a throw. -/
abbrev EngineResult := Option (Except (JsError × EngineState) EngineState)

/-- The catch blocks at ChatManager.ts:268 and :319: rethrow connection
errors, log and swallow everything else (execution then leaves the method
normally, keeping the state reached so far). -/
def guardConn : EngineResult → EngineResult
  | none => none
  | some (Except.error (e, st)) =>
      if e = JsError.connRefused then some (Except.error (e, st)) else some (Except.ok st)
  | some (Except.ok st) => some (Except.ok st)

/-- ChatManager.parseToolArguments (identical in both versions): JSON-parse a
string argument payload, degrading to `{ value: <raw> }` when parsing fails. -/
def parseToolArguments (env : Env) : RawArgs → JsObj
  | RawArgs.str s =>
      match env.jsonParse s with
      | some o => o
      | none => [("value", s)]
  | RawArgs.obj o => o

/-- The error test of the active ChatManager.handleToolCalls:
`Array.isArray(content) && content[0]?.type === "text" &&
content[0]?.text?.includes("Error")`. -/
def contentSignalsError : ToolContent → Bool
  | ToolContent.items (c :: _) =>
      c.type = "text" &&
        (match c.text with
         | some t => strContains t "Error"
         | none => false)
  | _ => false

/-- The weaker error test of the backup handleToolCalls, which does not check
the item type: `Array.isArray(content) && content[0]?.text?.includes("Error")`. -/
def contentSignalsErrorBackup : ToolContent → Bool
  | ToolContent.items (c :: _) =>
      match c.text with
      | some t => strContains t "Error"
      | none => false
  | _ => false

/-- The text `resultContent[0].text` as read inside the error branch. -/
def firstItemText : ToolContent → String
  | ToolContent.items (c :: _) => c.text.getD ""
  | _ => ""

/-- ChatManager.createDetailedErrorMessage (the providedArgs parameter is
accepted but unused by the source body). -/
def createDetailedErrorMessage (toolName errorText : String) (toolInfo : Option ToolInfo)
    (providedArgs : JsObj) (suggestedMappings : List (String × String)) : String :=
  let base := "Error using tool " ++ toolName ++ ":\n" ++ errorText ++ "\n\n"
  match toolInfo with
  | none => base
  | some info =>
      let m := base ++ "Expected parameters:\n"
        ++ "Required: " ++ String.intercalate ", " info.required ++ "\n"
        ++ "Available: " ++ String.intercalate ", " info.properties ++ "\n\n"
      if suggestedMappings.length > 0 then
        m ++ "Suggested parameter mappings:\n"
          ++ String.join (suggestedMappings.map fun p => "- " ++ p.1 ++ " → " ++ p.2 ++ "\n")
      else m

/-- The loop body of the active ChatManager.handleToolCalls.  `pending` is the
part of the batch not yet processed, `batch` the full `toolCalls` argument
(needed at the end for the previous-tool-names check), and `recurse` is the
recursive `this.handleToolCalls` used for nested batches.  After the last
pending call the method requests one follow-up completion; a reply that names
a tool outside the current batch starts a nested batch.  A tool result whose
content signals an error takes the repair branch, which always ends the method
(the `return` at the end of the error branch). -/
def runPending (env : Env) (recurse : List ToolCall → EngineState → EngineResult) :
    EngineState → List ToolCall → List ToolCall → EngineResult
  | st, [], batch =>
      let st1 := bumpChat st
      match env.chat st.chatCount st.msgs with
      | Except.error e => guardConn (some (Except.error (e, st1)))
      | Except.ok resp =>
          let st2 := push st1 resp.message
          if resp.tool_calls.isEmpty then some (Except.ok st2)
          else
            let prevNames := batch.map ToolCall.name
            if resp.tool_calls.any (fun c => !(prevNames.contains c.name)) then
              guardConn (recurse resp.tool_calls st2)
            else some (Except.ok st2)
  | st, tc :: rest, batch =>
      let args := parseToolArguments env tc.arguments
      let mappings := env.suggest tc.name args
      let fixedArgs := fixToolArguments args mappings
      let st1 := bumpTool st tc.name
      match env.callTool st.toolCount tc.name fixedArgs with
      | Except.error e => some (Except.error (e, st1))
      | Except.ok none => runPending env recurse st1 rest batch
      | Except.ok (some result) =>
          if contentSignalsError result.content then
            let errMsg := createDetailedErrorMessage tc.name (firstItemText result.content)
              (env.toolInfo tc.name) args mappings
            let st2 := push st1 (Message.mk "tool" errMsg (some tc.name))
            let st3 := bumpChat st2
            match env.chat st2.chatCount st2.msgs with
            | Except.error e => guardConn (some (Except.error (e, st3)))
            | Except.ok resp =>
                let st4 := push st3 resp.message
                if resp.tool_calls.isEmpty then some (Except.ok st4)
                else
                  if resp.tool_calls.any (fun c =>
                      c.name ≠ tc.name
                        || env.stringify c.arguments ≠ env.stringify tc.arguments) then
                    guardConn (recurse resp.tool_calls st4)
                  else some (Except.ok st4)
          else
            let st2 := push st1 (Message.mk "tool" (env.fmt result.content) (some tc.name))
            runPending env recurse st2 rest batch

/-- The active ChatManager.handleToolCalls, with fuel bounding the depth of
nested batches (the source recursion is unbounded; every claim about it is
conditioned on the run completing within some fuel). -/
def handleToolCalls (env : Env) : Nat → List ToolCall → EngineState → EngineResult
  | 0 => fun _ _ => none
  | Nat.succ fuel => fun batch st => runPending env (handleToolCalls env fuel) st batch batch

/-- The numbered context line for one retrieved doc in the active
processUserInput: `[i] 來源: <source>，時間: <time>\n<text>`. -/
def docEntry (i : Nat) (d : Doc) : String :=
  "[" ++ toString (i + 1) ++ "] 來源: " ++ d.source_doc.getD "未知來源"
    ++ "，時間: " ++ d.created_at.getD "未知時間" ++ "\n" ++ d.text

/-- The map `relatedDocs.map((doc, i) => ...)` with JavaScript's index argument. -/
def docEntriesFrom : Nat → List Doc → List String
  | _, [] => []
  | i, d :: rest => docEntry i d :: docEntriesFrom (i + 1) rest

/-- The contextText of the active processUserInput. -/
def contextText (docs : List Doc) : String :=
  String.intercalate "\n\n" (docEntriesFrom 0 docs)

/-- The RAG context-carrying system message of the active processUserInput
(the template literal, trimmed). -/
def contextSystemMessage (docs : List Doc) : Message :=
  Message.mk "system"
    (("\n  You are an intelligent assistant equipped with two key abilities:\n  1. You have access to background knowledge retrieved from a vector database (RAG). Use this information to support your answers whenever possible.\n  2. You can call external tools (via tool calls) to obtain necessary data or perform actions.\n  \n  Below is the relevant context retrieved from the knowledge base. When answering, you must quote the relevant sources using the format [1], [2], etc.\n  \n  " ++ contextText docs ++ "\n          ").trim)
    none

/-- The active ChatManager.processUserInput: push the user message; inside the
try block query recall, optionally inject the context message (no certainty
filter in this version), call the model, push its reply, and hand any tool
calls to handleToolCalls; the catch block pops the last message and rethrows. -/
def processUserInput (env : Env) (fuel : Nat) (st : EngineState) (userInput : String) :
    EngineResult :=
  let st0 := push st (Message.mk "user" userInput none)
  let stR := { st0 with recallCount := st0.recallCount + 1 }
  match env.recallDocs st0.recallCount with
  | Except.error e => some (Except.error (e, pop stR))
  | Except.ok docs =>
      let st1 := if docs.isEmpty then stR else push stR (contextSystemMessage docs)
      let st2 := bumpChat st1
      match env.chat st1.chatCount st1.msgs with
      | Except.error e => some (Except.error (e, pop st2))
      | Except.ok resp =>
          let st3 := push st2 resp.message
          if resp.tool_calls.isEmpty then some (Except.ok st3)
          else
            match handleToolCalls env fuel resp.tool_calls st3 with
            | none => none
            | some (Except.ok st4) => some (Except.ok st4)
            | some (Except.error (e, st4)) => some (Except.error (e, pop st4))

/-- The active ChatManager.handleUserInput: run the turn, then return the
content of the last message in history (`|| "(No response)"` catches both an
empty history and an empty content string). -/
def handleUserInput (env : Env) (fuel : Nat) (st : EngineState) (userInput : String) :
    Option (Except (JsError × EngineState) (EngineState × String)) :=
  match processUserInput env fuel st userInput with
  | none => none
  | some (Except.error p) => some (Except.error p)
  | some (Except.ok st1) =>
      let reply :=
        match st1.msgs.getLast? with
        | some m => if m.content = "" then "(No response)" else m.content
        | none => "(No response)"
      some (Except.ok (st1, reply))

/-- ChatManager.reset of the active version: `this.messages = []`. -/
def reset (st : EngineState) : EngineState :=
  { st with msgs := [] }

/-- The seed system message installed by the backup version's reset. -/
def backupSeedMessage : Message :=
  Message.mk "system"
    "You are a helpful AI assistant. If you need external data, you MUST use tools (e.g., get_kpi_status, snapshot_save) to retrieve it. Don't make assumptions."
    none

/-- ChatManager_backup_1.reset: one seeded system message; the counters are
not touched here (they are zeroed at the start of each handleUserInput). -/
def resetBackup (st : EngineState) : EngineState :=
  { st with msgs := [backupSeedMessage] }

/-- The certainty filter of the backup processUserInput:
`doc._additional?.certainty >= 0.75` (an absent certainty compares false). -/
def keptDocs (docs : List Doc) : List Doc :=
  docs.filter fun d =>
    match d.certainty with
    | some c => decide ((3 : Rat) / 4 ≤ c)
    | none => false

/-- The numbered context line of the backup processUserInput (its fallback
strings differ from the active version's). -/
def docEntryBackup (i : Nat) (d : Doc) : String :=
  "[" ++ toString (i + 1) ++ "] 來源: " ++ d.source_doc.getD "未知"
    ++ "，時間: " ++ d.created_at.getD "未知" ++ "\n" ++ d.text

/-- The backup's indexed map over the kept docs. -/
def docEntriesBackupFrom : Nat → List Doc → List String
  | _, [] => []
  | i, d :: rest => docEntryBackup i d :: docEntriesBackupFrom (i + 1) rest

/-- The context-carrying system message of the backup processUserInput. -/
def contextSystemMessageBackup (docs : List Doc) : Message :=
  Message.mk "system"
    ("以下為相關背景資訊，請引用來源 [1]、[2] 等格式回答：\n"
      ++ String.intercalate "\n\n" (docEntriesBackupFrom 0 docs))
    none

/-- The loop of the backup handleToolCalls: on an error-signalling result the
counter is incremented, the formatted result is still pushed as a tool-role
message, and the loop continues with the next call; there is no try/catch, so
a throw from callTool (or from the final model call) propagates. -/
def runPendingBackup (env : Env) : EngineState → List ToolCall → EngineResult
  | st, [] =>
      let st1 := bumpChat st
      match env.chat st.chatCount st.msgs with
      | Except.error e => some (Except.error (e, st1))
      | Except.ok resp =>
          let st2 := push st1 resp.message
          let st3 := { st2 with recordCount := st2.recordCount + 1 }
          match env.record st2.recordCount resp.message.content true st2.toolUsageFlag
              st2.toolErrorCount with
          | Except.error e => some (Except.error (e, st3))
          | Except.ok _ => some (Except.ok st3)
  | st, tc :: rest =>
      let args := parseToolArguments env tc.arguments
      let mappings := env.suggest tc.name args
      let fixedArgs := fixToolArguments args mappings
      let st1 := bumpTool st tc.name
      match env.callTool st.toolCount tc.name fixedArgs with
      | Except.error e => some (Except.error (e, st1))
      | Except.ok none => runPendingBackup env st1 rest
      | Except.ok (some result) =>
          let formatted := env.fmt result.content
          let st2 := if contentSignalsErrorBackup result.content
                     then { st1 with toolErrorCount := st1.toolErrorCount + 1 } else st1
          let st3 := push st2 (Message.mk "tool" formatted (some tc.name))
          runPendingBackup env st3 rest

/-- The backup compressHistory with the source default maxMessages = 10:
when history exceeds 10 messages, replace all but the last 10 by one summary
system message. -/
def compressHistory (st : EngineState) : EngineState :=
  if st.msgs.length > 10 then
    let recent := st.msgs.drop (st.msgs.length - 10)
    let summary := String.intercalate "\n"
      ((st.msgs.take (st.msgs.length - 10)).map fun m => m.role ++ ": " ++ m.content)
    { st with msgs :=
        Message.mk "system" ("Summary of previous conversation:\n" ++ summary) none :: recent }
  else st

/-- The backup processUserInput: like the active one, but the retrieved docs
are filtered at certainty 0.75 before deciding whether to inject context, the
no-tool branch records a failure outcome, and the successful turn ends with
compressHistory. -/
def processUserInputBackup (env : Env) (st : EngineState) (userInput : String) :
    EngineResult :=
  let st0 := push st (Message.mk "user" userInput none)
  let stR := { st0 with recallCount := st0.recallCount + 1 }
  match env.recallDocs st0.recallCount with
  | Except.error e => some (Except.error (e, pop stR))
  | Except.ok docsAll =>
      let docs := keptDocs docsAll
      let st1 := if docs.isEmpty then stR else push stR (contextSystemMessageBackup docs)
      let st2 := bumpChat st1
      match env.chat st1.chatCount st1.msgs with
      | Except.error e => some (Except.error (e, pop st2))
      | Except.ok resp =>
          let st3 := push st2 resp.message
          if resp.tool_calls.isEmpty then
            let st4 := { st3 with recordCount := st3.recordCount + 1 }
            match env.record st3.recordCount "LLM 回答未使用工具" false st3.toolUsageFlag
                st3.toolErrorCount with
            | Except.error e => some (Except.error (e, pop st4))
            | Except.ok _ => some (Except.ok (compressHistory st4))
          else
            let st3a := { st3 with toolUsageFlag := true }
            match runPendingBackup env st3a resp.tool_calls with
            | none => none
            | some (Except.ok st4) => some (Except.ok (compressHistory st4))
            | some (Except.error (e, st4)) => some (Except.error (e, pop st4))

/-- The backup handleUserInput: zero the per-turn flag and error counter, run
the turn, and return the last message's content. -/
def handleUserInputBackup (env : Env) (st : EngineState) (userInput : String) :
    Option (Except (JsError × EngineState) (EngineState × String)) :=
  let st0 := { st with toolUsageFlag := false, toolErrorCount := 0 }
  match processUserInputBackup env st0 userInput with
  | none => none
  | some (Except.error p) => some (Except.error p)
  | some (Except.ok st1) =>
      let reply :=
        match st1.msgs.getLast? with
        | some m => if m.content = "" then "(No response)" else m.content
        | none => "(No response)"
      some (Except.ok (st1, reply))

/-- Parse the tool name out of a tool message's leading Tool "<name>" marker:
when the content starts with the six characters of Tool ", the name is what
follows up to the next double quote. -/
def parseToolNameMarker (content : String) : Option String :=
  if "Tool \"".toList.isPrefixOf content.toList then
    some (String.mk ((content.toList.drop 6).takeWhile fun c => c ≠ '"'))
  else none

/-- TurnOutcome as the HTTP layer and the XappTrainer consume it. -/
structure TurnOutcome where
  replyText : String
  toolResults : List ToolResultEntry
deriving DecidableEq

/-- Tool-role test used when diffing the history. -/
def isToolMsg (m : Message) : Bool := m.role = "tool"

/-- Modelled from the spec: the TurnOutcome derivation of handleUserInput is
missing from the sources (both ChatManager versions under src/ return a plain
string, yet XappTrainer and the HTTP layer read `result.toolResults`).  Per
the spec, the outcome is obtained by diffing the tool-role messages present
before the turn against those present after it, parsing each tool's name from
the leading Tool "<name>" marker and keeping the raw text; the reply text is
the content of the final message in history. -/
def turnOutcomeOf (before after : List Message) : TurnOutcome :=
  let newTools := (after.filter isToolMsg).drop (before.filter isToolMsg).length
  TurnOutcome.mk
    (match after.getLast? with
     | some m => m.content
     | none => "(No response)")
    (newTools.map fun m => ToolResultEntry.mk (parseToolNameMarker m.content) m.content)

/-- Modelled from the spec: handleUserInput returning a TurnOutcome — run the
turn through the active engine and derive the outcome from the history delta. -/
def handleUserInputOutcome (env : Env) (fuel : Nat) (st : EngineState) (userInput : String) :
    Option (Except (JsError × EngineState) (EngineState × TurnOutcome)) :=
  match processUserInput env fuel st userInput with
  | none => none
  | some (Except.error p) => some (Except.error p)
  | some (Except.ok st1) => some (Except.ok (st1, turnOutcomeOf st.msgs st1.msgs))

/-! Helper lemmas shared by several claims. -/

/-- Unfolding step of the ensureToolTriggered loop. -/
lemma ensureGo_succ (attempts : Nat → List ToolResultEntry) (e s : String)
    (used k : Nat) :
    ensureGo attempts e s used (k + 1)
      = if attemptTriggered e (attempts used) then (used + 1, none)
        else ensureGo attempts e s (used + 1) k := rfl

/-- The attempt counter of the loop never exceeds the starting value plus the
remaining budget. -/
lemma ensureGo_count_le (attempts : Nat → List ToolResultEntry) (e s : String) :
    ∀ k used, (ensureGo attempts e s used k).1 ≤ used + k := by
  intro k
  induction k with
  | zero => intro used; simp [ensureGo]
  | succ n ih =>
      intro used
      rw [ensureGo_succ]
      by_cases h : attemptTriggered e (attempts used)
      · rw [if_pos h]
        show used + 1 ≤ used + (n + 1)
        omega
      · rw [if_neg h]
        calc (ensureGo attempts e s (used + 1) n).1 ≤ used + 1 + n := ih (used + 1)
          _ = used + (n + 1) := by omega

/-- Writing a fresh key into a JS object appends it. -/
lemma objInsert_of_not_mem {α : Type} (l : List (String × α)) (k : String) (v : α)
    (h : k ∉ l.map Prod.fst) : objInsert l k v = l ++ [(k, v)] := by
  induction l with
  | nil => rfl
  | cons kv rest ih =>
      simp only [List.map_cons, List.mem_cons] at h
      push_neg at h
      have hne : ¬(kv.1 = k) := fun hk => h.1 hk.symm
      simp only [objInsert, if_neg hne]
      rw [ih h.2]
      simp

/-- The fold of fixToolArguments, run from any accumulator whose keys avoid
the incoming mapped keys, appends the renamed pairs in order. -/
lemma fixToolArguments_go {α : Type} (m : List (String × String)) :
    ∀ (args : List (String × α)) (acc : List (String × α)),
      (∀ kv ∈ args, mappedKey m kv.1 ∉ acc.map Prod.fst) →
      (args.map fun kv => mappedKey m kv.1).Nodup →
      args.foldl (fun acc2 kv => objInsert acc2 (mappedKey m kv.1) kv.2) acc
        = acc ++ args.map fun kv => (mappedKey m kv.1, kv.2) := by
  intro args
  induction args with
  | nil => intro acc _ _; simp
  | cons kv rest ih =>
      intro acc hdisj hnodup
      simp only [List.foldl_cons]
      rw [objInsert_of_not_mem acc _ kv.2 (hdisj kv (List.mem_cons_self kv rest))]
      simp only [List.map_cons, List.nodup_cons] at hnodup
      rw [ih (acc ++ [(mappedKey m kv.1, kv.2)]) ?_ hnodup.2]
      · simp
      · intro kv2 h2
        simp only [List.map_append, List.mem_append, List.map_cons]
        rintro (hacc | hnew)
        · exact hdisj kv2 (List.mem_cons_of_mem kv h2) hacc
        · simp only [List.map_nil, List.mem_cons, List.not_mem_nil, or_false] at hnew
          exact hnodup.1 (hnew ▸ List.mem_map_of_mem (fun kv3 => mappedKey m kv3.1) h2)

/-- With an empty rename table every key maps to itself. -/
lemma mappedKey_nil (key : String) : mappedKey [] key = key := rfl

/-! C2 — reset. -/

/-- A fresh engine state around a given history, with zeroed counters. -/
def mkState (msgs : List Message) : EngineState :=
  EngineState.mk msgs false 0 0 0 0 0 []

/-- C2 counterexample: reset of the active ChatManager empties the history
entirely (no seeded system message survives), and the backup reset leaves a
nonzero tool-error counter untouched — so the claim "exactly one seeded
system message and zero counters" fails on both versions. -/
theorem reset_seed_counterexample :
    (reset (mkState [backupSeedMessage, Message.mk "user" "hi" none])).msgs.length = 0
    ∧ (reset (mkState [backupSeedMessage, Message.mk "user" "hi" none])).msgs.length ≠ 1
    ∧ (resetBackup { mkState [] with toolErrorCount := 5 }).toolErrorCount = 5
    ∧ (resetBackup { mkState [] with toolErrorCount := 5 }).toolErrorCount ≠ 0 := by
  refine ⟨rfl, ?_, rfl, ?_⟩ <;> decide

/-- C2 amended: the active reset clears the history to the empty list (it
seeds nothing), while the backup reset seeds exactly the one backup system
message but leaves the tool-usage flag and tool-error counter unchanged
(those are zeroed by handleUserInput at the start of each turn instead). -/
theorem reset_amended (st : EngineState) (env : Env) (input : String) :
    (reset st).msgs = []
    ∧ (resetBackup st).msgs = [backupSeedMessage]
    ∧ (resetBackup st).toolErrorCount = st.toolErrorCount
    ∧ (resetBackup st).toolUsageFlag = st.toolUsageFlag
    ∧ (handleUserInputBackup env st input = handleUserInputBackup env
        { st with toolUsageFlag := false, toolErrorCount := 0 } input) := by
  exact ⟨rfl, rfl, rfl, rfl, rfl⟩

/-! C8 — fixToolArguments. -/

/-- C8 counterexample: when the suggested mapping sends one provided key onto
another provided key, the later write overwrites the earlier one and a
provided value is dropped — so "never drops values / the output holds exactly
the provided values" fails.  Here args = {a: "1", b: "2"} with the mapping
a → b produce {b: "2"}, losing the value "1". -/
theorem fixToolArguments_drops_counterexample :
    fixToolArguments [("a", "1"), ("b", "2")] [("a", "b")] = [("b", "2")]
    ∧ ("a", "1") ∈ [("a", "1"), ("b", "2")]
    ∧ "1" ∉ (fixToolArguments [("a", "1"), ("b", "2")] [("a", "b")]).map Prod.snd := by
  refine ⟨rfl, ?_, ?_⟩ <;> decide

/-- C8 amended: provided the corrected keys are pairwise distinct (which
includes every run where the mapping does not merge keys), the fix renames
each pair in place — every provided value is kept, under its corrected key,
with unmapped keys unchanged; with an empty mapping (already-correct
arguments) the object is returned unchanged, and the operation is idempotent
on such arguments. -/
theorem fixToolArguments_amended {α : Type} (args : List (String × α))
    (mappings : List (String × String)) :
    ((args.map fun kv => mappedKey mappings kv.1).Nodup →
      fixToolArguments args mappings = args.map fun kv => (mappedKey mappings kv.1, kv.2))
    ∧ ((args.map Prod.fst).Nodup → fixToolArguments args [] = args)
    ∧ ((args.map Prod.fst).Nodup →
        fixToolArguments (fixToolArguments args []) [] = fixToolArguments args []) := by
  have hnil : (args.map fun kv => mappedKey ([] : List (String × String)) kv.1)
      = args.map Prod.fst := by
    simp [mappedKey_nil]
  have hid : (args.map Prod.fst).Nodup → fixToolArguments args [] = args := by
    intro hnodup
    have h1 := fixToolArguments_go ([] : List (String × String)) args []
      (by intro kv _ hmem; simp at hmem) (by rw [hnil]; exact hnodup)
    rw [fixToolArguments, h1]
    simp [mappedKey_nil]
  refine ⟨?_, hid, ?_⟩
  · intro hnodup
    have h1 := fixToolArguments_go mappings args []
      (by intro kv _ hmem; simp at hmem) hnodup
    rw [fixToolArguments, h1]
    simp
  · intro hnodup
    rw [hid hnodup, hid hnodup]

/-- C8 witness: the amended theorem applied to the concrete arguments
{host: "h", port: "p"} with the mapping host → hostname, and to the
already-correct arguments with the empty mapping. -/
theorem fixToolArguments_amended_witness :
    (([("host", "h"), ("port", "p")].map
        fun kv => mappedKey [("host", "hostname")] kv.1).Nodup
      ∧ fixToolArguments [("host", "h"), ("port", "p")] [("host", "hostname")]
          = [("hostname", "h"), ("port", "p")])
    ∧ fixToolArguments [("host", "h"), ("port", "p")] ([] : List (String × String))
        = [("host", "h"), ("port", "p")]
    ∧ fixToolArguments
        (fixToolArguments [("host", "h"), ("port", "p")] ([] : List (String × String))) []
        = fixToolArguments [("host", "h"), ("port", "p")] ([] : List (String × String)) := by
  have hn : (([("host", "h"), ("port", "p")] : List (String × String)).map
      fun kv => mappedKey [("host", "hostname")] kv.1).Nodup := by decide
  have hk : (([("host", "h"), ("port", "p")] : List (String × String)).map Prod.fst).Nodup := by
    decide
  refine ⟨⟨hn, ?_⟩, ?_, ?_⟩
  · rw [(fixToolArguments_amended [("host", "h"), ("port", "p")] [("host", "hostname")]).1 hn]
    rfl
  · exact (fixToolArguments_amended [("host", "h"), ("port", "p")] [("host", "hostname")]).2.1 hk
  · exact (fixToolArguments_amended [("host", "h"), ("port", "p")] [("host", "hostname")]).2.2 hk

/-! C6 — workflow retry bound. -/

/-- C6: with the source retry budget of 3, ensureToolTriggered performs at
most 3 attempts; when all 3 attempts fail to trigger the expected tool it
throws exactly the error message naming that tool and that step; and when the
tool triggers on attempt 2 it stops after 2 attempts (no third attempt) with
no error. -/
theorem ensureToolTriggered_retry_bound (attempts : Nat → List ToolResultEntry)
    (e s : String) :
    (ensureToolTriggered attempts e s 3).1 ≤ 3
    ∧ ((∀ i, i < 3 → attemptTriggered e (attempts i) = false) →
        ensureToolTriggered attempts e s 3 = (3, some (triggerFailMessage e s)))
    ∧ (attemptTriggered e (attempts 0) = false →
        attemptTriggered e (attempts 1) = true →
        ensureToolTriggered attempts e s 3 = (2, none)) := by
  refine ⟨ensureGo_count_le attempts e s 3 0, ?_, ?_⟩
  · intro hall
    show ensureGo attempts e s 0 (2 + 1) = (3, some (triggerFailMessage e s))
    rw [ensureGo_succ, if_neg (by simp [hall 0 (by omega)])]
    show ensureGo attempts e s 1 (1 + 1) = (3, some (triggerFailMessage e s))
    rw [ensureGo_succ, if_neg (by simp [hall 1 (by omega)])]
    show ensureGo attempts e s 2 (0 + 1) = (3, some (triggerFailMessage e s))
    rw [ensureGo_succ, if_neg (by simp [hall 2 (by omega)])]
    rfl
  · intro h0 h1
    show ensureGo attempts e s 0 (2 + 1) = (2, none)
    rw [ensureGo_succ, if_neg (by simp [h0])]
    show ensureGo attempts e s 1 (1 + 1) = (2, none)
    rw [ensureGo_succ, if_pos h1]

/-- C6 witness: the bound and the never-triggers branch at an attempt stream
that never returns tool results, and the attempt-2 branch at a stream whose
second attempt reports the expected tool. -/
theorem ensureToolTriggered_retry_bound_witness :
    (ensureToolTriggered (fun _ => []) "get_kpi_status" "Step 1" 3).1 ≤ 3
    ∧ ensureToolTriggered (fun _ => []) "get_kpi_status" "Step 1" 3
        = (3, some (triggerFailMessage "get_kpi_status" "Step 1"))
    ∧ ensureToolTriggered
        (fun i => if i = 1
          then [ToolResultEntry.mk none "Tool \"get_kpi_status\" 回傳結果: ok"] else [])
        "get_kpi_status" "Step 1" 3
        = (2, none) := by
  refine ⟨(ensureToolTriggered_retry_bound (fun _ => []) "get_kpi_status" "Step 1").1,
    (ensureToolTriggered_retry_bound (fun _ => []) "get_kpi_status" "Step 1").2.1 ?_,
    (ensureToolTriggered_retry_bound
      (fun i => if i = 1
        then [ToolResultEntry.mk none "Tool \"get_kpi_status\" 回傳結果: ok"] else [])
      "get_kpi_status" "Step 1").2.2 ?_ ?_⟩
  · intro i _; rfl
  · decide
  · decide

/-! C7 — the trigger predicate. -/

/-- C7: an attempt is declared successful exactly when some toolResults entry
matches the expected tool by trimmed case-insensitive name, or its result
text contains the substring Tool "<expectedTool>". -/
theorem attemptTriggered_spec (expectedTool : String) (trs : List ToolResultEntry) :
    attemptTriggered expectedTool trs = true ↔
      ∃ tr ∈ trs,
        (∃ n, tr.toolName = some n ∧ n.trim.toLower = expectedTool.trim.toLower)
        ∨ strContains tr.result ("Tool \"" ++ expectedTool ++ "\"") = true := by
  rw [attemptTriggered, List.any_eq_true]
  constructor
  · rintro ⟨tr, htr, hp⟩
    refine ⟨tr, htr, ?_⟩
    cases hn : tr.toolName with
    | none =>
        rw [hn] at hp
        simp only [Bool.or_eq_true] at hp
        rcases hp with hp | hp
        · cases hp
        · exact Or.inr hp
    | some n =>
        rw [hn] at hp
        simp only [Bool.or_eq_true, decide_eq_true_eq] at hp
        rcases hp with hp | hp
        · exact Or.inl ⟨n, rfl, hp⟩
        · exact Or.inr hp
  · rintro ⟨tr, htr, hp⟩
    refine ⟨tr, htr, ?_⟩
    rcases hp with ⟨n, hn, hlow⟩ | hsub
    · rw [hn]
      simp only [Bool.or_eq_true, decide_eq_true_eq]
      exact Or.inl hlow
    · cases tr.toolName <;> simp [hsub]

/-! Engine-level claims.  Helper shorthands first. -/

/-- The arguments actually passed to callTool for one request: parsed, then
fixed through the suggested mapping. -/
def fixedArgsOf (env : Env) (tc : ToolCall) : JsObj :=
  fixToolArguments (parseToolArguments env tc.arguments)
    (env.suggest tc.name (parseToolArguments env tc.arguments))

/-- The detailed error message pushed for an error-signalling result. -/
def toolErrMsgOf (env : Env) (tc : ToolCall) (result : ToolResult) : String :=
  createDetailedErrorMessage tc.name (firstItemText result.content)
    (env.toolInfo tc.name) (parseToolArguments env tc.arguments)
    (env.suggest tc.name (parseToolArguments env tc.arguments))

/-- Observation: the history of a normally-completed run. -/
def okMsgs : EngineResult → Option (List Message)
  | some (Except.ok st) => some st.msgs
  | _ => none

/-- Observation: the trace of a normally-completed run. -/
def okTrace : EngineResult → Option (List String)
  | some (Except.ok st) => some st.trace
  | _ => none

/-- Observation: the error counter of a normally-completed run. -/
def okToolErrors : EngineResult → Option Nat
  | some (Except.ok st) => some st.toolErrorCount
  | _ => none

/-- Observation: the thrown error and the history it leaves behind. -/
def errInfo : EngineResult → Option (JsError × List Message)
  | some (Except.error (e, st)) => some (e, st.msgs)
  | _ => none

/-! C10 — unknown tool name: callTool returns undefined. -/

/-- C10: when callTool answers `undefined` for a request (unknown tool), the
loop appends no tool message and raises nothing — the run continues exactly
as the run on the remaining calls (only the invocation counter and trace
advance) — and once the batch is exhausted the follow-up model call is still
issued and its reply appended. -/
theorem unknown_tool_skipped (env : Env)
    (recurse : List ToolCall → EngineState → EngineResult) (st : EngineState)
    (tc : ToolCall) (rest batch : List ToolCall) (resp : ChatResponse)
    (h1 : env.callTool st.toolCount tc.name (fixedArgsOf env tc) = Except.ok none) :
    runPending env recurse st (tc :: rest) batch
      = runPending env recurse (bumpTool st tc.name) rest batch
    ∧ (bumpTool st tc.name).msgs = st.msgs
    ∧ (env.chat st.chatCount st.msgs = Except.ok resp → resp.tool_calls = [] →
        runPending env recurse st [] batch
          = some (Except.ok (push (bumpChat st) resp.message))) := by
  refine ⟨?_, rfl, ?_⟩
  · rw [runPending]
    rw [fixedArgsOf] at h1
    rw [h1]
  · intro hc he
    obtain ⟨m, tcs⟩ := resp
    have he2 : tcs = [] := he
    subst he2
    rw [runPending, hc]
    rfl

/-- The do-nothing recursion used to instantiate `recurse` in witnesses
(never reached on the witnessed paths). -/
def noRecurse : List ToolCall → EngineState → EngineResult := fun _ _ => none

/-- An environment whose every oracle is inert: callTool knows no tool, chat
fails, recall returns nothing. -/
def baseEnv : Env :=
  Env.mk (fun _ _ => []) (fun _ _ _ => Except.ok none)
    (fun _ _ => Except.error (JsError.other "unscripted"))
    (fun _ => Except.ok []) (fun _ _ _ _ _ => Except.ok ()) (fun _ => none)
    (fun c => match c with
      | ToolContent.plain s => s
      | ToolContent.items l => String.intercalate "\n" (l.map fun i => i.text.getD ""))
    (fun _ => none) (fun _ => "")

/-- A model reply with no tool calls. -/
def respNoTools : ChatResponse :=
  ChatResponse.mk (Message.mk "assistant" "好的" none) []

/-- baseEnv whose chat oracle always replies without tool calls. -/
def envSkip : Env :=
  { baseEnv with chat := fun _ _ => Except.ok respNoTools }

/-- A tool call to a name the catalog does not know. -/
def tcUnknown : ToolCall := ToolCall.mk "mystery_tool" (RawArgs.obj [])

/-- C10 witness: with a one-element batch naming an unknown tool, the run
skips the call (history untouched) and still issues the follow-up model
call, appending its reply. -/
theorem unknown_tool_skipped_witness :
    runPending envSkip noRecurse (mkState []) [tcUnknown] [tcUnknown]
      = runPending envSkip noRecurse (bumpTool (mkState []) "mystery_tool") [] [tcUnknown]
    ∧ runPending envSkip noRecurse (mkState []) [] [tcUnknown]
      = some (Except.ok (push (bumpChat (mkState [])) respNoTools.message)) := by
  refine ⟨?_, ?_⟩
  · exact (unknown_tool_skipped envSkip noRecurse (mkState []) tcUnknown [] [tcUnknown]
      respNoTools rfl).1
  · exact (unknown_tool_skipped envSkip noRecurse (mkState []) tcUnknown [] [tcUnknown]
      respNoTools rfl).2.2 rfl rfl

/-! C9 — repair replies repeating the failed call verbatim stop the turn. -/

/-- C9: inside the error-repair branch, when the model's repair reply carries
tool calls that all coincide with the failed call in both name and serialized
arguments, the engine recurses into nothing and ends the batch: the run
completes normally with exactly the failed invocation's error message and the
repair reply appended, regardless of the remaining batch and of what the
nested handler would do; the trace shows one invocation and one model call. -/
theorem repair_same_call_stops (env : Env)
    (recurse : List ToolCall → EngineState → EngineResult) (st : EngineState)
    (tc : ToolCall) (rest batch : List ToolCall) (result : ToolResult)
    (resp : ChatResponse)
    (h1 : env.callTool st.toolCount tc.name (fixedArgsOf env tc)
      = Except.ok (some result))
    (h2 : contentSignalsError result.content = true)
    (h3 : env.chat st.chatCount
        (push (bumpTool st tc.name)
          (Message.mk "tool" (toolErrMsgOf env tc result) (some tc.name))).msgs
      = Except.ok resp)
    (h4 : resp.tool_calls ≠ [])
    (h5 : ∀ c ∈ resp.tool_calls, c.name = tc.name
      ∧ env.stringify c.arguments = env.stringify tc.arguments) :
    runPending env recurse st (tc :: rest) batch
      = some (Except.ok (push (bumpChat (push (bumpTool st tc.name)
          (Message.mk "tool" (toolErrMsgOf env tc result) (some tc.name))))
          resp.message))
    ∧ (push (bumpChat (push (bumpTool st tc.name)
          (Message.mk "tool" (toolErrMsgOf env tc result) (some tc.name))))
          resp.message).trace
        = st.trace ++ [invokedTag tc.name, chatTag] := by
  constructor
  · obtain ⟨mr, tcs⟩ := resp
    rw [runPending]
    rw [fixedArgsOf] at h1
    rw [toolErrMsgOf] at h3
    simp only [push, bumpTool, bumpChat] at h3 ⊢
    rw [h1]
    simp only [h2, if_true]
    rw [h3]
    cases tcs with
    | nil => exact absurd rfl h4
    | cons a l =>
        have hany : ((a :: l).any fun c =>
            decide ¬c.name = tc.name
              || decide ¬env.stringify c.arguments = env.stringify tc.arguments) = false := by
          rw [List.any_eq_false]
          intro c hc
          rcases h5 c hc with ⟨hn, hs⟩
          simp [hn, hs]
        simp only [List.isEmpty_cons, Bool.false_eq_true, if_false, hany]
        rfl
  · simp [push, bumpChat, bumpTool, List.append_assoc]


/-- A tool result whose first content item is text containing "Error". -/
def errResult : ToolResult :=
  ToolResult.mk (ToolContent.items [ContentItem.mk "text" (some "Error: invalid parameters")])

/-- A first tool call of the batch. -/
def tcA : ToolCall := ToolCall.mk "get_kpi_status" (RawArgs.obj [("cell", "1")])

/-- A second tool call of the batch, never reached in the error scenarios. -/
def tcB : ToolCall := ToolCall.mk "snapshot_save" (RawArgs.obj [])

/-- A repair reply that repeats the failed call verbatim. -/
def respRepeat : ChatResponse :=
  ChatResponse.mk (Message.mk "assistant" "retrying the same call" none) [tcA]

/-- Environment for the repeat-repair scenario: every invocation reports the
error result and the model always answers by repeating the failed call. -/
def envC9 : Env :=
  { baseEnv with
    callTool := fun _ _ _ => Except.ok (some errResult),
    chat := fun _ _ => Except.ok respRepeat,
    stringify := fun r =>
      match r with
      | RawArgs.str s => s
      | RawArgs.obj o => String.intercalate "," (o.map fun kv => kv.1 ++ ":" ++ kv.2) }

/-- C9 witness: with the repair reply repeating the failed call in name and
serialized arguments, the batch run completes at once — the second batch
entry and any nested handling are never reached. -/
theorem repair_same_call_stops_witness :
    runPending envC9 noRecurse (mkState []) [tcA, tcB] [tcA, tcB]
      = some (Except.ok (push (bumpChat (push (bumpTool (mkState []) "get_kpi_status")
          (Message.mk "tool" (toolErrMsgOf envC9 tcA errResult) (some "get_kpi_status"))))
          respRepeat.message)) :=
  (repair_same_call_stops envC9 noRecurse (mkState []) tcA [tcB] [tcA, tcB] errResult
    respRepeat rfl (by decide) rfl (by decide) (by decide)).1

/-! C5 — tool-execution errors in a batch. -/

/-- Environment for the error-then-stop scenario on the active engine: the
invocation reports the error result and the repair model call answers with
no tool calls. -/
def envC5 : Env :=
  { baseEnv with
    callTool := fun _ _ _ => Except.ok (some errResult),
    chat := fun _ _ => Except.ok respNoTools }

/-- C5 counterexample (active engine): the first call of the batch reports an
error; the engine appends the detailed error message, makes one repair model
call, and returns — the second tool call of the batch is never invoked and no
error counter is incremented, contradicting "increments an error counter ...
and continues to the next tool call in the batch". -/
theorem tool_error_batch_stops_counterexample :
    okTrace (handleToolCalls envC5 1 [tcA, tcB] (mkState []))
      = some [invokedTag "get_kpi_status", chatTag]
    ∧ okToolErrors (handleToolCalls envC5 1 [tcA, tcB] (mkState [])) = some 0 := by
  refine ⟨?_, ?_⟩ <;> decide

/-- C5 amended: on the backup engine the claim holds — an error-signalling
result increments the error counter, is still appended as a tool-role
message, and the loop continues with the rest of the batch; a connection
failure from callTool propagates.  On the active engine an error-signalling
result instead triggers the repair branch, which (here, when the repair reply
carries no tool calls) ends the batch without touching the remaining calls
and without any counter. -/
theorem tool_error_amended (env : Env)
    (recurse : List ToolCall → EngineState → EngineResult)
    (st : EngineState) (tc : ToolCall) (rest batch : List ToolCall)
    (result : ToolResult) (resp : ChatResponse) :
    (env.callTool st.toolCount tc.name (fixedArgsOf env tc) = Except.ok (some result) →
      contentSignalsErrorBackup result.content = true →
      runPendingBackup env st (tc :: rest)
        = runPendingBackup env
            (push { bumpTool st tc.name with
                toolErrorCount := (bumpTool st tc.name).toolErrorCount + 1 }
              (Message.mk "tool" (env.fmt result.content) (some tc.name))) rest)
    ∧ (env.callTool st.toolCount tc.name (fixedArgsOf env tc) = Except.ok (some result) →
        contentSignalsError result.content = true →
        env.chat st.chatCount
            (push (bumpTool st tc.name)
              (Message.mk "tool" (toolErrMsgOf env tc result) (some tc.name))).msgs
          = Except.ok resp →
        resp.tool_calls = [] →
        runPending env recurse st (tc :: rest) batch
          = some (Except.ok (push (bumpChat (push (bumpTool st tc.name)
              (Message.mk "tool" (toolErrMsgOf env tc result) (some tc.name))))
              resp.message)))
    ∧ (env.callTool st.toolCount tc.name (fixedArgsOf env tc)
          = Except.error JsError.connRefused →
        runPendingBackup env st (tc :: rest)
          = some (Except.error (JsError.connRefused, bumpTool st tc.name))) := by
  refine ⟨?_, ?_, ?_⟩
  · intro h1 h2
    rw [runPendingBackup]
    rw [fixedArgsOf] at h1
    rw [h1]
    simp only [h2, if_true]
  · intro h1 h2 h3 h4
    obtain ⟨mr, tcs⟩ := resp
    have he2 : tcs = [] := h4
    subst he2
    rw [runPending]
    rw [fixedArgsOf] at h1
    rw [toolErrMsgOf] at h3
    simp only [push, bumpTool, bumpChat] at h3 ⊢
    rw [h1]
    simp only [h2, if_true]
    rw [h3]
    rfl
  · intro h1
    rw [runPendingBackup]
    rw [fixedArgsOf] at h1
    rw [h1]

/-- Environment whose tool service refuses the connection. -/
def envConn : Env :=
  { baseEnv with callTool := fun _ _ _ => Except.error JsError.connRefused }

/-- C5 witness: the backup continue-and-count behavior, the active engine's
stop-after-error behavior, and the propagation of a connection failure, each
at concrete inputs. -/
theorem tool_error_amended_witness :
    runPendingBackup envC5 (mkState []) [tcA, tcB]
      = runPendingBackup envC5
          (push { bumpTool (mkState []) "get_kpi_status" with
              toolErrorCount := (bumpTool (mkState []) "get_kpi_status").toolErrorCount + 1 }
            (Message.mk "tool" (envC5.fmt errResult.content) (some "get_kpi_status"))) [tcB]
    ∧ runPending envC5 noRecurse (mkState []) [tcA, tcB] [tcA, tcB]
        = some (Except.ok (push (bumpChat (push (bumpTool (mkState []) "get_kpi_status")
            (Message.mk "tool" (toolErrMsgOf envC5 tcA errResult) (some "get_kpi_status"))))
            respNoTools.message))
    ∧ runPendingBackup envConn (mkState []) [tcA]
        = some (Except.error (JsError.connRefused, bumpTool (mkState []) "get_kpi_status")) := by
  refine ⟨?_, ?_, ?_⟩
  · exact (tool_error_amended envC5 noRecurse (mkState []) tcA [tcB] [tcA, tcB] errResult
      respNoTools).1 rfl (by decide)
  · exact (tool_error_amended envC5 noRecurse (mkState []) tcA [tcB] [tcA, tcB] errResult
      respNoTools).2.1 rfl (by decide) rfl rfl
  · exact (tool_error_amended envConn noRecurse (mkState []) tcA [] [] errResult
      respNoTools).2.2 rfl

/-! C4 — rollback on a thrown turn.  First: history only grows during a
batch (`this.messages` is append-only inside handleToolCalls). -/

/-- Every state an engine run can end in — normal or thrown — extends the
starting history. -/
def ResultMono (st : EngineState) : EngineResult → Prop
  | none => True
  | some (Except.ok st2) => st.msgs <+: st2.msgs
  | some (Except.error (_, st2)) => st.msgs <+: st2.msgs

lemma prefix_two_append {α : Type} (l a b : List α) : l <+: (l ++ a) ++ b :=
  (List.prefix_append l a).trans (List.prefix_append (l ++ a) b)

lemma resultMono_trans {st st1 : EngineState} {r : EngineResult}
    (h : st.msgs <+: st1.msgs) (hr : ResultMono st1 r) : ResultMono st r := by
  cases r with
  | none => trivial
  | some x =>
      cases x with
      | ok st2 => exact h.trans hr
      | error p =>
          obtain ⟨e, st2⟩ := p
          exact h.trans hr

lemma guardConn_mono {st : EngineState} {r : EngineResult} (h : ResultMono st r) :
    ResultMono st (guardConn r) := by
  cases r with
  | none => trivial
  | some x =>
      cases x with
      | ok st2 => exact h
      | error p =>
          obtain ⟨e, st2⟩ := p
          by_cases he : e = JsError.connRefused
          · show ResultMono st (if e = JsError.connRefused then _ else _)
            rw [if_pos he]
            exact h
          · show ResultMono st (if e = JsError.connRefused then _ else _)
            rw [if_neg he]
            exact h

lemma runPending_mono (env : Env) (recurse : List ToolCall → EngineState → EngineResult)
    (hrec : ∀ b s, ResultMono s (recurse b s)) :
    ∀ (pending : List ToolCall) (st : EngineState) (batch : List ToolCall),
      ResultMono st (runPending env recurse st pending batch) := by
  intro pending
  induction pending with
  | nil =>
      intro st batch
      rw [runPending]
      cases hchat : env.chat st.chatCount st.msgs with
      | error e =>
          exact guardConn_mono (show st.msgs <+: (bumpChat st).msgs from List.prefix_rfl)
      | ok resp =>
          by_cases hemp : resp.tool_calls.isEmpty = true
          · show ResultMono st (if resp.tool_calls.isEmpty = true then _ else _)
            rw [if_pos hemp]
            exact List.prefix_append _ _
          · show ResultMono st (if resp.tool_calls.isEmpty = true then _ else _)
            rw [if_neg hemp]
            by_cases hany : (resp.tool_calls.any
                fun c => !(batch.map ToolCall.name).contains c.name) = true
            · rw [if_pos hany]
              exact guardConn_mono
                (resultMono_trans (List.prefix_append _ _) (hrec _ _))
            · rw [if_neg hany]
              exact List.prefix_append _ _
  | cons tc rest ih =>
      intro st batch
      rw [runPending]
      cases hcall : env.callTool st.toolCount tc.name
          (fixToolArguments (parseToolArguments env tc.arguments)
            (env.suggest tc.name (parseToolArguments env tc.arguments))) with
      | error e => exact List.prefix_rfl
      | ok oresult =>
          cases oresult with
          | none =>
              exact resultMono_trans
                (show st.msgs <+: (bumpTool st tc.name).msgs from List.prefix_rfl)
                (ih (bumpTool st tc.name) batch)
          | some result =>
              by_cases herr : contentSignalsError result.content = true
              · show ResultMono st (if contentSignalsError result.content = true then _ else _)
                rw [if_pos herr]
                simp only [push, bumpTool, bumpChat]
                split
                · apply guardConn_mono
                  exact List.prefix_append _ _
                · split
                  · exact prefix_two_append _ _ _
                  · split
                    · apply guardConn_mono
                      refine resultMono_trans ?_ (hrec _ _)
                      exact prefix_two_append _ _ _
                    · exact prefix_two_append _ _ _
              · show ResultMono st (if contentSignalsError result.content = true then _ else _)
                rw [if_neg herr]
                exact resultMono_trans (List.prefix_append _ _)
                  (ih (push (bumpTool st tc.name)
                    (Message.mk "tool" (env.fmt result.content) (some tc.name))) batch)

lemma handleToolCalls_mono (env : Env) :
    ∀ (fuel : Nat) (batch : List ToolCall) (st : EngineState),
      ResultMono st (handleToolCalls env fuel batch st) := by
  intro fuel
  induction fuel with
  | zero => intro batch st; trivial
  | succ n ih =>
      intro batch st
      exact runPending_mono env (handleToolCalls env n) (fun b s => ih b s) batch st batch

/-- A strict prefix stays a prefix after dropping the last element. -/
lemma prefix_dropLast_of_lt {α : Type} {A l : List α} (h : A <+: l)
    (hl : A.length < l.length) : A <+: l.dropLast := by
  obtain ⟨t, rfl⟩ := h
  have ht : t ≠ [] := by
    intro h0
    subst h0
    simp at hl
  rw [List.dropLast_append_of_ne_nil A ht]
  exact List.prefix_append _ _


lemma handleToolCalls_mono_err (env : Env) (fuel : Nat) (batch : List ToolCall)
    (st st4 : EngineState) (e : JsError)
    (heq : handleToolCalls env fuel batch st = some (Except.error (e, st4))) :
    st.msgs <+: st4.msgs := by
  have hm := handleToolCalls_mono env fuel batch st
  rw [heq] at hm
  exact hm

lemma handleToolCalls_mono_ok (env : Env) (fuel : Nat) (batch : List ToolCall)
    (st st4 : EngineState)
    (heq : handleToolCalls env fuel batch st = some (Except.ok st4)) :
    st.msgs <+: st4.msgs := by
  have hm := handleToolCalls_mono env fuel batch st
  rw [heq] at hm
  exact hm

/-- Environment for the rollback counterexample: recall succeeds with one
document (so a context message is appended), then the model call refuses the
connection. -/
def lowDoc : Doc :=
  Doc.mk "歷史優化策略紀錄" (some "docA") (some "2024-01-01") (some (3 / 5))

def envC4 : Env :=
  { baseEnv with
    recallDocs := fun _ => Except.ok [lowDoc],
    chat := fun _ _ => Except.error JsError.connRefused }

/-- C4 counterexample: the turn starts from an empty history, recall injects
a context message, then the model call throws.  The catch pops only the LAST
message (the context message), so the just-pushed user message survives and
history is NOT restored to its pre-turn (empty) state, contradicting the
claim; the connection error does propagate. -/
theorem turn_rollback_counterexample :
    errInfo (processUserInput envC4 1 (mkState []) "hi")
      = some (JsError.connRefused, [Message.mk "user" "hi" none]) := by
  decide

/-- C4 amended: when an exception is thrown during a turn, exactly one
message — the most recently appended — is popped before the exception
propagates.  The history at the throw always extends the pre-turn history
plus the pushed user message; pre-turn state is restored precisely when the
throw happened before any further append, and otherwise the user message
(and all earlier appends but the last) survive in history. -/
theorem turn_rollback_amended (env : Env) (fuel : Nat) (st : EngineState)
    (input : String) (e : JsError) (st2 : EngineState)
    (h : processUserInput env fuel st input = some (Except.error (e, st2))) :
    ∃ mid : List Message,
      (st.msgs ++ [Message.mk "user" input none]) <+: mid
      ∧ st2.msgs = mid.dropLast
      ∧ ((st.msgs ++ [Message.mk "user" input none]).length < mid.length →
          (st.msgs ++ [Message.mk "user" input none]) <+: st2.msgs) := by
  have pack : ∀ mid : List Message,
      (st.msgs ++ [Message.mk "user" input none]) <+: mid →
      st2.msgs = mid.dropLast →
      ∃ mid : List Message,
        (st.msgs ++ [Message.mk "user" input none]) <+: mid
        ∧ st2.msgs = mid.dropLast
        ∧ ((st.msgs ++ [Message.mk "user" input none]).length < mid.length →
            (st.msgs ++ [Message.mk "user" input none]) <+: st2.msgs) := by
    intro mid h1 h2
    refine ⟨mid, h1, h2, ?_⟩
    intro hl
    rw [h2]
    exact prefix_dropLast_of_lt h1 hl
  rw [processUserInput] at h
  split at h
  · rename_i e2 heqr
    simp only [Option.some.injEq, Except.error.injEq, Prod.mk.injEq] at h
    refine pack (st.msgs ++ [Message.mk "user" input none]) List.prefix_rfl ?_
    rw [← h.2]
    rfl
  · rename_i docs heqr
    split at h
    · dsimp only at h
      split at h
      · rename_i e2 heqc
        simp only [Option.some.injEq, Except.error.injEq, Prod.mk.injEq] at h
        refine pack (st.msgs ++ [Message.mk "user" input none]) List.prefix_rfl ?_
        rw [← h.2]
        rfl
      · rename_i resp heqc
        split at h
        · exact absurd h (by simp)
        · split at h
          · exact absurd h (by simp)
          · rename_i heqt
            exact absurd h (by simp)
          · rename_i e2 st4 heqt
            simp only [Option.some.injEq, Except.error.injEq, Prod.mk.injEq] at h
            refine pack st4.msgs
              ((List.prefix_append _ _).trans
                (handleToolCalls_mono_err env fuel resp.tool_calls _ st4 e2 heqt)) ?_
            rw [← h.2]
            rfl
    · dsimp only at h
      split at h
      · rename_i e2 heqc
        simp only [Option.some.injEq, Except.error.injEq, Prod.mk.injEq] at h
        refine pack ((st.msgs ++ [Message.mk "user" input none])
            ++ [contextSystemMessage docs]) (List.prefix_append _ _) ?_
        rw [← h.2]
        rfl
      · rename_i resp heqc
        split at h
        · exact absurd h (by simp)
        · split at h
          · exact absurd h (by simp)
          · rename_i heqt
            exact absurd h (by simp)
          · rename_i e2 st4 heqt
            simp only [Option.some.injEq, Except.error.injEq, Prod.mk.injEq] at h
            refine pack st4.msgs
              ((prefix_two_append _ _ _).trans
                (handleToolCalls_mono_err env fuel resp.tool_calls _ st4 e2 heqt)) ?_
            rw [← h.2]
            rfl

/-- The state left behind by the witnessed throw: only the context message
was popped; the user message survives. -/
def stC4 : EngineState :=
  EngineState.mk [Message.mk "user" "hi" none] false 0 1 0 1 0 [chatTag]

/-- C4 witness: the amended rollback property at the concrete throwing run
(recall injects one context message, then the model call throws). -/
theorem turn_rollback_amended_witness :
    processUserInput envC4 1 (mkState []) "hi"
      = some (Except.error (JsError.connRefused, stC4))
    ∧ (∃ mid : List Message,
        (([] : List Message) ++ [Message.mk "user" "hi" none]) <+: mid
        ∧ stC4.msgs = mid.dropLast
        ∧ ((([] : List Message) ++ [Message.mk "user" "hi" none]).length < mid.length →
            (([] : List Message) ++ [Message.mk "user" "hi" none]) <+: stC4.msgs)) := by
  refine ⟨rfl, ?_⟩
  exact turn_rollback_amended envC4 1 (mkState []) "hi" JsError.connRefused stC4 rfl

/-! C3 — the 0.75 certainty threshold. -/

/-- Environment for the low-certainty scenario: one retrieved document at
certainty 0.6 and a model reply without tool calls. -/
def envC3 : Env :=
  { baseEnv with
    recallDocs := fun _ => Except.ok [lowDoc],
    chat := fun _ _ => Except.ok respNoTools }

/-- C3 counterexample (active engine): with a single retrieved match at
certainty 0.6 (below 0.75), the active processUserInput still appends a
context-carrying system message — the active ChatManager.ts applies no
certainty filter at all, so the history of the completed turn holds three
messages, one of them a system message. -/
theorem rag_low_certainty_counterexample :
    (okMsgs (processUserInput envC3 1 (mkState []) "查詢網路狀態")).map
        (fun l => l.countP fun m => m.role == "system") = some 1
    ∧ (okMsgs (processUserInput envC3 1 (mkState []) "查詢網路狀態")).map List.length
        = some 3 := by
  refine ⟨?_, ?_⟩ <;> decide

/-- C3 amended: the 0.75 threshold lives in the backup engine only.  There,
every document kept by the filter carries certainty ≥ 0.75; if every
retrieved document is below the threshold (or carries none) the filter keeps
nothing, and a turn whose retrieval yields only such documents injects no
context message: the completed history gains exactly the user message and
the model reply.  The active engine (counterexample above) injects a context
message for any nonempty match list regardless of certainty. -/
theorem rag_threshold_amended (env : Env) (st : EngineState) (input : String)
    (docs : List Doc) (resp : ChatResponse) :
    (∀ d ∈ keptDocs docs, ∃ c, d.certainty = some c ∧ (3 : Rat) / 4 ≤ c)
    ∧ ((∀ d ∈ docs, ∀ c, d.certainty = some c → c < 3 / 4) → keptDocs docs = [])
    ∧ (env.recallDocs (push st (Message.mk "user" input none)).recallCount
          = Except.ok docs →
        keptDocs docs = [] →
        env.chat st.chatCount (st.msgs ++ [Message.mk "user" input none])
          = Except.ok resp →
        resp.tool_calls = [] →
        env.record st.recordCount "LLM 回答未使用工具" false st.toolUsageFlag
            st.toolErrorCount = Except.ok () →
        processUserInputBackup env st input
          = some (Except.ok (compressHistory
              { push (bumpChat { push st (Message.mk "user" input none) with
                  recallCount := (push st (Message.mk "user" input none)).recallCount + 1 })
                  resp.message with
                recordCount := st.recordCount + 1 }))) := by
  refine ⟨?_, ?_, ?_⟩
  · intro d hd
    rw [keptDocs, List.mem_filter] at hd
    cases hc : d.certainty with
    | none =>
        rw [hc] at hd
        exact absurd hd.2 (by simp)
    | some c =>
        rw [hc] at hd
        refine ⟨c, rfl, ?_⟩
        have := hd.2
        simp only [decide_eq_true_eq] at this
        exact this
  · intro hall
    rw [keptDocs, List.filter_eq_nil_iff]
    intro d hd
    cases hc : d.certainty with
    | none => simp [hc]
    | some c =>
        simp only [hc, decide_eq_true_eq]
        exact not_le.mpr (hall d hd c hc)
  · intro h1 h2 h3 h4 h5
    obtain ⟨mr, tcs⟩ := resp
    have he2 : tcs = [] := h4
    subst he2
    rw [processUserInputBackup, h1]
    simp only [h2, push, bumpChat, List.isEmpty_nil, eq_self_iff_true, if_true]
    rw [h3]
    simp only [List.isEmpty_nil, eq_self_iff_true, if_true]
    rw [h5]

/-! C3 witness and C1. -/

/-- C3 witness: the amended threshold property at the concrete run whose
single retrieved document carries certainty 0.6 — the filter keeps nothing
and the completed backup turn appends only the user message and the model
reply, with no context message. -/
theorem rag_threshold_amended_witness :
    keptDocs [lowDoc] = []
    ∧ processUserInputBackup envC3 (mkState []) "查詢網路狀態"
        = some (Except.ok (compressHistory
            { push (bumpChat { push (mkState []) (Message.mk "user" "查詢網路狀態" none) with
                recallCount :=
                  (push (mkState []) (Message.mk "user" "查詢網路狀態" none)).recallCount + 1 })
                respNoTools.message with
              recordCount := (mkState []).recordCount + 1 })) := by
  have h2 : keptDocs [lowDoc] = [] := by
    refine (rag_threshold_amended envC3 (mkState []) "查詢網路狀態" [lowDoc] respNoTools).2.1 ?_
    intro d hd c hc
    rw [List.mem_singleton] at hd
    subst hd
    have h6 := Option.some.inj hc
    rw [← h6]
    norm_num
  exact ⟨h2, (rag_threshold_amended envC3 (mkState []) "查詢網路狀態" [lowDoc]
    respNoTools).2.2 rfl h2 rfl rfl rfl⟩

/-- A normally-completed turn of the active engine only appends: the history
it leaves extends the pre-turn history plus the pushed user message. -/
lemma processUserInput_ok_extends (env : Env) (fuel : Nat) (st : EngineState)
    (input : String) (st1 : EngineState)
    (h : processUserInput env fuel st input = some (Except.ok st1)) :
    st.msgs ++ [Message.mk "user" input none] <+: st1.msgs := by
  rw [processUserInput] at h
  split at h
  · exact absurd h (by simp)
  · rename_i docs heqr
    split at h
    · dsimp only at h
      split at h
      · exact absurd h (by simp)
      · rename_i resp heqc
        split at h
        · simp only [Option.some.injEq, Except.ok.injEq] at h
          rw [← h]
          exact List.prefix_append _ _
        · split at h
          · exact absurd h (by simp)
          · rename_i st4 heqt
            simp only [Option.some.injEq, Except.ok.injEq] at h
            rw [← h]
            exact (List.prefix_append _ _).trans
              (handleToolCalls_mono_ok env fuel resp.tool_calls _ st4 heqt)
          · rename_i e2 st4 heqt
            exact absurd h (by simp)
    · dsimp only at h
      split at h
      · exact absurd h (by simp)
      · rename_i resp heqc
        split at h
        · simp only [Option.some.injEq, Except.ok.injEq] at h
          rw [← h]
          exact prefix_two_append _ _ _
        · split at h
          · exact absurd h (by simp)
          · rename_i st4 heqt
            simp only [Option.some.injEq, Except.ok.injEq] at h
            rw [← h]
            exact (prefix_two_append _ _ _).trans
              (handleToolCalls_mono_ok env fuel resp.tool_calls _ st4 heqt)
          · rename_i e2 st4 heqt
            exact absurd h (by simp)

/-- The diff step of the spec's TurnOutcome derivation: when the after
history extends the before history, the tool messages new to the diff are
exactly the tool messages of the appended delta. -/
lemma turnOutcomeOf_delta (before delta : List Message) :
    (turnOutcomeOf before (before ++ delta)).toolResults
      = (delta.filter isToolMsg).map
          (fun m => ToolResultEntry.mk (parseToolNameMarker m.content) m.content) := by
  rw [turnOutcomeOf]
  dsimp only
  rw [List.filter_append, List.drop_left]

/-- C1 (spec-modelled): a completed turn of handleUserInput extends the
history by a delta, the outcome's toolResults are exactly the tool-role
messages of that delta — each carrying the name parsed from its leading
Tool "<name>" marker and its raw text — and the reply text is the content of
the final message of the post-turn history. -/
theorem handleUserInputOutcome_spec (env : Env) (fuel : Nat) (st : EngineState)
    (input : String) (st1 : EngineState) (outcome : TurnOutcome)
    (h : handleUserInputOutcome env fuel st input = some (Except.ok (st1, outcome))) :
    ∃ delta : List Message,
      st1.msgs = st.msgs ++ delta
      ∧ outcome.toolResults = (delta.filter isToolMsg).map
          (fun m => ToolResultEntry.mk (parseToolNameMarker m.content) m.content)
      ∧ ∃ m, st1.msgs.getLast? = some m ∧ outcome.replyText = m.content := by
  cases hp : processUserInput env fuel st input with
  | none =>
      rw [handleUserInputOutcome, hp] at h
      exact absurd h (by simp)
  | some x =>
      cases x with
      | error p =>
          rw [handleUserInputOutcome, hp] at h
          exact absurd h (by simp)
      | ok s =>
          rw [handleUserInputOutcome, hp] at h
          simp only [Option.some.injEq, Except.ok.injEq, Prod.mk.injEq] at h
          obtain ⟨hs, ho⟩ := h
          subst hs
          obtain ⟨t, ht⟩ := processUserInput_ok_extends env fuel st input s hp
          refine ⟨[Message.mk "user" input none] ++ t, ?_, ?_, ?_⟩
          · rw [← ht, List.append_assoc]
          · rw [← ho, ← ht, List.append_assoc]
            exact turnOutcomeOf_delta st.msgs ([Message.mk "user" input none] ++ t)
          · have hne : s.msgs ≠ [] := by
              intro h0
              rw [h0] at ht
              simp at ht
            cases hlast : s.msgs.getLast? with
            | none => exact absurd (List.getLast?_eq_none_iff.mp hlast) hne
            | some m =>
                refine ⟨m, rfl, ?_⟩
                rw [← ho, turnOutcomeOf]
                dsimp only
                rw [hlast]

/-- A successful (non-error) tool result. -/
def okToolResult : ToolResult := ToolResult.mk (ToolContent.plain "ok")

/-- First model reply of the witnessed turn: requests one tool call. -/
def respWithTool : ChatResponse :=
  ChatResponse.mk (Message.mk "assistant" "" none) [tcA]

/-- Follow-up model reply of the witnessed turn: plain text, no tool calls. -/
def respFinal : ChatResponse :=
  ChatResponse.mk (Message.mk "assistant" "KPI 正常" none) []

/-- Environment for the witnessed turn: no retrieved knowledge, one tool call
requested and executed successfully, then a final reply. -/
def envTurn : Env :=
  { baseEnv with
    callTool := fun _ _ _ => Except.ok (some okToolResult),
    chat := fun n _ => if n = 0 then Except.ok respWithTool else Except.ok respFinal,
    fmt := fun _ => "Tool \"get_kpi_status\" result:\nok" }

/-- The state the witnessed turn completes in. -/
def stTurn : EngineState :=
  EngineState.mk
    [Message.mk "user" "hi" none, Message.mk "assistant" "" none,
     Message.mk "tool" "Tool \"get_kpi_status\" result:\nok" (some "get_kpi_status"),
     Message.mk "assistant" "KPI 正常" none]
    false 0 2 1 1 0 [chatTag, invokedTag "get_kpi_status", chatTag]

/-- The outcome the witnessed turn reports. -/
def outTurn : TurnOutcome :=
  TurnOutcome.mk "KPI 正常"
    [ToolResultEntry.mk (some "get_kpi_status") "Tool \"get_kpi_status\" result:\nok"]

/-- C1 witness: the spec-modelled handleUserInput at a concrete turn with one
tool call — the outcome's toolResults hold exactly the turn's tool message,
with the name parsed from the marker, and the reply is the final message. -/
theorem handleUserInputOutcome_spec_witness :
    handleUserInputOutcome envTurn 1 (mkState []) "hi" = some (Except.ok (stTurn, outTurn))
    ∧ (∃ delta : List Message,
        stTurn.msgs = (mkState []).msgs ++ delta
        ∧ outTurn.toolResults = (delta.filter isToolMsg).map
            (fun m => ToolResultEntry.mk (parseToolNameMarker m.content) m.content)
        ∧ ∃ m, stTurn.msgs.getLast? = some m ∧ outTurn.replyText = m.content) := by
  refine ⟨rfl, ?_⟩
  exact handleUserInputOutcome_spec envTurn 1 (mkState []) "hi" stTurn outTurn rfl

end McpAgent
